import Mathlib

/-!
Verification of the EKF-SLAM estimator implemented in `slam/EKFSLAM.py`.

The Python class `EKFSLAM` is shallowly embedded over the real numbers:
numpy vectors become functions out of `Fin n`, numpy matrices become
Mathlib `Matrix` values, and the block slicing `P[:3, :3]`, `P[:3, 3:]`,
... of the joint covariance becomes `Matrix.fromBlocks`/`Matrix.toBlocks`
over the index type `Fin 3 ⊕ (Fin L × Fin 2)` (pose indices ⊕ landmark
pairs).  The helpers `utils.wrapToPi` and `utils.rotmat2d` and the `JCBB`
data association are external to the repository and are modelled from
their spec contracts where needed.
-/

noncomputable section

open Matrix

namespace EKFSLAM

/-- Modelled from the spec: `utils.wrapToPi` is an external geometry helper
whose contract is `wrap_to_pi(angle) -> angle ∈ (-π, π]`.  The unique such
representative of `θ` modulo `2π` is `θ - 2π·⌈(θ - π)/(2π)⌉`. -/
def wrapToPi (θ : ℝ) : ℝ :=
  θ - 2 * Real.pi * ⌈(θ - Real.pi) / (2 * Real.pi)⌉

/-- Modelled from the spec: `utils.rotmat2d` is an external geometry helper
whose contract is `rotation_matrix_2d(theta) -> 2×2 orthonormal matrix`, the
standard counter-clockwise rotation matrix. -/
def rotmat2d (θ : ℝ) : Matrix (Fin 2) (Fin 2) ℝ :=
  !![Real.cos θ, -Real.sin θ; Real.sin θ, Real.cos θ]

/-- The immutable configuration of the `EKFSLAM` dataclass
(source lines 14-20): process noise `Q`, measurement noise `R`, the
association-enable flag, gating thresholds and the sensor mounting offset. -/
structure Config where
  Q : Matrix (Fin 3) (Fin 3) ℝ
  R : Matrix (Fin 2) (Fin 2) ℝ
  do_asso : Bool
  alphas : Fin 2 → ℝ
  sensor_offset : Fin 2 → ℝ

/-- `EKFSLAM.f` (source lines 22-51): the implemented pose propagation.
Note the source's `xpred`: the y component is
`yprev + uprev*np.sin(psiprev) + vprev*np.sin(psiprev)` (both displacement
components multiplied by `sin`), and the heading `phiprev + psiprev` is not
re-wrapped (the source's own line-49 comment says it should be). -/
def f (x u : Fin 3 → ℝ) : Fin 3 → ℝ :=
  let uprev := u 0
  let vprev := u 1
  let phiprev := wrapToPi (u 2)
  let xprev := x 0
  let yprev := x 1
  let psiprev := wrapToPi (x 2)
  ![xprev + uprev * Real.cos psiprev - vprev * Real.sin psiprev,
    yprev + uprev * Real.sin psiprev + vprev * Real.sin psiprev,
    phiprev + psiprev]

/-- The pose propagation exactly as claim C1 (and spec §4.1) states it:
the standard rigid-body composition with distinct sine/cosine factors on the
two body-frame axes and the resulting heading wrapped to `(-π, π]`.  This
definition follows the claim's words and is compared against `f` above. -/
def fSpec (x u : Fin 3 → ℝ) : Fin 3 → ℝ :=
  ![x 0 + u 0 * Real.cos (x 2) - u 1 * Real.sin (x 2),
    x 1 + u 0 * Real.sin (x 2) + u 1 * Real.cos (x 2),
    wrapToPi (x 2 + u 2)]

/-- `EKFSLAM.Fx` (source lines 53-87): stated Jacobian of `f` w.r.t. the
pose, `np.eye(3)` with `Fx[0][2] = -u·sin ψ - v·cos ψ` and
`Fx[1][2] = u·cos ψ - v·sin ψ` (the raw `x[2]`, not wrapped). -/
def Fx (x u : Fin 3 → ℝ) : Matrix (Fin 3) (Fin 3) ℝ :=
  !![1, 0, -u 0 * Real.sin (x 2) - u 1 * Real.cos (x 2);
     0, 1, u 0 * Real.cos (x 2) - u 1 * Real.sin (x 2);
     0, 0, 1]

/-- `EKFSLAM.Fu` (source lines 89-122): stated Jacobian of `f` w.r.t. the
odometry, with `Fu[0][0] = Fu[1][1] = cos ψ`, `Fu[1][0] = sin ψ`,
`Fu[0][1] = -sin ψ` and `Fu[2][2] = 1`. -/
def Fu (x u : Fin 3 → ℝ) : Matrix (Fin 3) (Fin 3) ℝ :=
  !![Real.cos (x 2), -Real.sin (x 2), 0;
     Real.sin (x 2), Real.cos (x 2), 0;
     0, 0, 1]

lemma wrapToPi_eq_self {θ : ℝ} (h1 : -Real.pi < θ) (h2 : θ ≤ Real.pi) :
    wrapToPi θ = θ := by
  have hpi := Real.pi_pos
  have hceil : ⌈(θ - Real.pi) / (2 * Real.pi)⌉ = 0 := by
    rw [Int.ceil_eq_zero_iff, Set.mem_Ioc]
    constructor
    · rw [lt_div_iff (by linarith)]
      linarith
    · apply div_nonpos_of_nonpos_of_nonneg <;> linarith
  rw [wrapToPi, hceil]
  simp

lemma wrapToPi_zero : wrapToPi 0 = 0 :=
  wrapToPi_eq_self (by linarith [Real.pi_pos]) (le_of_lt Real.pi_pos)

lemma wrapToPi_three : wrapToPi 3 = 3 :=
  wrapToPi_eq_self (by linarith [Real.pi_pos]) (le_of_lt Real.pi_gt_three)

lemma wrapToPi_six : wrapToPi 6 = 6 - 2 * Real.pi := by
  have hpi := Real.pi_pos
  have h3 := Real.pi_gt_three
  have h4 := Real.pi_lt_315
  have hceil : ⌈(6 - Real.pi) / (2 * Real.pi)⌉ = 1 := by
    rw [Int.ceil_eq_iff]
    constructor
    · push_cast
      rw [lt_div_iff (by linarith)]
      linarith
    · push_cast
      rw [div_le_iff (by linarith)]
      linarith
  rw [wrapToPi, hceil]
  push_cast
  ring

/-- C1 (code_bug): the implemented `f` is not the standard rigid-body
composition the claim states.  At pose `(0,0,0)` with odometry `(0,1,0)`
(a pure lateral displacement) the code returns `(0,0,0)` — the lateral
component is lost because the y row multiplies it by `sin ψ` instead of
`cos ψ` — while the composition of the claim returns `(0,1,0)`.  At pose
`(0,0,3)` with odometry `(0,0,3)` the code returns heading `6 > π`,
unwrapped, while the claim's composition wraps it to `6 - 2π`. -/
theorem c1_code_bug :
    f ![0, 0, 0] ![0, 1, 0] = ![0, 0, 0] ∧
    fSpec ![0, 0, 0] ![0, 1, 0] = ![0, 1, 0] ∧
    f ![0, 0, 3] ![0, 0, 3] 2 = 6 ∧
    Real.pi < 6 ∧
    fSpec ![0, 0, 3] ![0, 0, 3] 2 = 6 - 2 * Real.pi := by
  refine ⟨?_, ?_, ?_, ?_, ?_⟩
  · funext i
    fin_cases i <;> simp [f, wrapToPi_zero]
  · funext i
    fin_cases i <;> simp [fSpec, wrapToPi_zero]
  · simp [f, wrapToPi_three]
    norm_num
  · linarith [Real.pi_lt_315]
  · show wrapToPi (3 + 3) = 6 - 2 * Real.pi
    norm_num [wrapToPi_six]

/-- C2 (code_bug): `Fu` is not the Jacobian of the implemented `f` at the
linearization point.  At pose `(0,0,0)`, odometry `(0,1,0)`, the partial
derivative of the implemented y component w.r.t. the lateral control `v` is
`sin ψ = 0` (the function `v ↦ f((0,0,0),(0,v,0))₁` is constant), yet the
code's `Fu[1][1] = cos ψ = 1`.  (`Fx`/`Fu` are the Jacobians of the intended
standard composition; the slip is in `f`'s y row, see C1.) -/
theorem c2_code_bug :
    HasDerivAt (fun v : ℝ => f ![0, 0, 0] ![0, v, 0] 1) 0 1 ∧
    Fu ![0, 0, 0] ![0, 1, 0] 1 1 = 1 := by
  constructor
  · have hconst : (fun v : ℝ => f ![0, 0, 0] ![0, v, 0] 1) = fun _ => (0 : ℝ) := by
      funext v
      simp [f, wrapToPi_zero]
    rw [hconst]
    exact hasDerivAt_const 1 0
  · simp [Fu]

/-! ## Covariance prediction (`EKFSLAM.predict`, source lines 124-181)

The joint state over `L` landmarks is indexed by `Fin 3 ⊕ M` with
`M = Fin L × Fin 2`: `Sum.inl` are the pose rows (`eta[:3]`, `P[:3]`) and
`Sum.inr` the landmark rows (`eta[3:]`, `P[3:]`).  The slice assignments of
lines 169-171 write the four blocks of the new covariance; note line 171
reads the still-unmodified map-robot block `P[3:, :3]`. -/

/-- `EKFSLAM.predict` mean update (source lines 155-159): the pose block is
propagated through `f`, the landmark block is passed through unchanged. -/
def predictEta {M : Type} (eta : Fin 3 ⊕ M → ℝ) (u : Fin 3 → ℝ) : Fin 3 ⊕ M → ℝ :=
  Sum.elim (f (fun p => eta (Sum.inl p)) u) (fun m => eta (Sum.inr m))

/-- `EKFSLAM.predict` covariance update (source lines 169-171):
`P[:3,:3] = Fx·P[:3,:3]·Fxᵀ + Fu·Q·Fuᵀ`, `P[:3,3:] = Fx·P[:3,3:]`,
`P[3:,:3] = P[3:,:3]·Fxᵀ` (old value), map-map block unchanged. -/
def predictP {M : Type} (cfg : Config) (x u : Fin 3 → ℝ)
    (P : Matrix (Fin 3 ⊕ M) (Fin 3 ⊕ M) ℝ) : Matrix (Fin 3 ⊕ M) (Fin 3 ⊕ M) ℝ :=
  fromBlocks
    (Fx x u * P.toBlocks₁₁ * (Fx x u)ᵀ + Fu x u * cfg.Q * (Fu x u)ᵀ)
    (Fx x u * P.toBlocks₁₂)
    (P.toBlocks₂₁ * (Fx x u)ᵀ)
    P.toBlocks₂₂

/-- A concrete configuration (used by witnesses and counterexamples):
`Q = I`, `R = I`, association enabled, the dataclass's default gating
thresholds, zero sensor offset. -/
def cfg1 : Config := ⟨1, 1, true, ![0.001, 0.0001], fun _ => 0⟩

/-- Proof-internal factor placing `Fu` against the pose rows, so that the
process-noise block of `predictP` is the conjugation `noiseIn·Q·noiseInᴴ`. -/
def noiseIn {M : Type} (x u : Fin 3 → ℝ) : Matrix (Fin 3 ⊕ M) (Fin 3) ℝ :=
  of fun i j => Sum.elim (fun p => Fu x u p j) (fun _ => 0) i

lemma noiseIn_conj {M : Type} [Fintype M] (cfg : Config) (x u : Fin 3 → ℝ) :
    noiseIn (M := M) x u * cfg.Q * (noiseIn (M := M) x u)ᴴ =
      fromBlocks (Fu x u * cfg.Q * (Fu x u)ᵀ) 0 0 0 := by
  ext i j
  cases i with
  | inl p =>
    cases j with
    | inl q =>
      simp [noiseIn, Matrix.mul_apply, Matrix.conjTranspose_apply]
    | inr m =>
      simp [noiseIn, Matrix.mul_apply, Matrix.conjTranspose_apply]
  | inr m =>
    cases j with
    | inl q =>
      simp [noiseIn, Matrix.mul_apply, Matrix.conjTranspose_apply]
    | inr m2 =>
      simp [noiseIn, Matrix.mul_apply, Matrix.conjTranspose_apply]

lemma predictP_eq_conj {M : Type} [Fintype M] [DecidableEq M] (cfg : Config)
    (x u : Fin 3 → ℝ) (P : Matrix (Fin 3 ⊕ M) (Fin 3 ⊕ M) ℝ) :
    predictP cfg x u P =
      fromBlocks (Fx x u) 0 0 (1 : Matrix M M ℝ) * P *
          (fromBlocks (Fx x u) 0 0 (1 : Matrix M M ℝ))ᴴ +
        noiseIn x u * cfg.Q * (noiseIn x u)ᴴ := by
  have hG : (fromBlocks (Fx x u) 0 0 (1 : Matrix M M ℝ))ᴴ =
      fromBlocks (Fx x u)ᵀ 0 0 (1 : Matrix M M ℝ) := by
    rw [fromBlocks_conjTranspose]
    simp [conjTranspose_eq_transpose_of_trivial]
  rw [hG, noiseIn_conj]
  unfold predictP
  conv_rhs => rw [← fromBlocks_toBlocks P]
  rw [fromBlocks_multiply, fromBlocks_multiply, fromBlocks_add]
  simp [Matrix.mul_assoc]

lemma det_Fx (x u : Fin 3 → ℝ) : (Fx x u).det = 1 := by
  rw [Matrix.det_fin_three]
  simp only [Fx, Matrix.cons_val', Matrix.cons_val_zero, Matrix.cons_val_one,
    Matrix.head_cons, Matrix.empty_val', Matrix.cons_val_fin_one,
    Matrix.head_fin_const, Matrix.cons_val_two, Matrix.tail_cons, Matrix.of_apply]
  ring

lemma isUnit_predict_factor {M : Type} [Fintype M] [DecidableEq M]
    (x u : Fin 3 → ℝ) :
    IsUnit (fromBlocks (Fx x u) 0 0 (1 : Matrix M M ℝ)) := by
  rw [Matrix.isUnit_iff_isUnit_det, Matrix.det_fromBlocks_zero₂₁, det_Fx,
    Matrix.det_one, one_mul]
  exact isUnit_one

/-- Conjugating a positive definite real matrix by an invertible matrix
preserves positive definiteness (strict version of
`Matrix.PosSemidef.mul_mul_conjTranspose_same`). -/
lemma posDef_mul_mul_conjTranspose {n : Type} [Fintype n] [DecidableEq n]
    {A : Matrix n n ℝ} (hA : A.PosDef) {G : Matrix n n ℝ} (hG : IsUnit G) :
    (G * A * Gᴴ).PosDef := by
  refine ⟨Matrix.isHermitian_mul_mul_conjTranspose G hA.isHermitian,
    fun x hx => ?_⟩
  have hGH : IsUnit Gᴴ := by
    rw [Matrix.isUnit_iff_isUnit_det, Matrix.det_conjTranspose, star_trivial]
    exact (Matrix.isUnit_iff_isUnit_det G).mp hG
  have hx2 : Gᴴ *ᵥ x ≠ 0 := by
    intro h0
    apply hx
    apply Matrix.mulVec_injective_iff_isUnit.mpr hGH
    rw [Matrix.mulVec_zero]
    exact h0
  have hpos := hA.2 (Gᴴ *ᵥ x) hx2
  simpa only [Matrix.star_mulVec, Matrix.conjTranspose_conjTranspose,
    Matrix.dotProduct_mulVec, Matrix.vecMul_vecMul, Matrix.mulVec_mulVec,
    Matrix.mul_assoc] using hpos

/-- C3 counterexample: the claim quantifies over every symmetric PSD input
`P`, but at the symmetric PSD input `P = 0` (one landmark, `Q = I`, pose and
odometry zero) the predicted covariance has a zero landmark block, hence is
not positive definite: the process noise `Fu·Q·Fuᵀ` only enters the
robot-robot block.  (The code then aborts in its own postcondition
assertion, lines 174-176.) -/
theorem c3_counterexample :
    (0 : Matrix (Fin 3 ⊕ Fin 1 × Fin 2) (Fin 3 ⊕ Fin 1 × Fin 2) ℝ).IsSymm ∧
    (0 : Matrix (Fin 3 ⊕ Fin 1 × Fin 2) (Fin 3 ⊕ Fin 1 × Fin 2) ℝ).PosSemidef ∧
    ¬ (predictP cfg1 ![0, 0, 0] ![0, 0, 0]
        (0 : Matrix (Fin 3 ⊕ Fin 1 × Fin 2) (Fin 3 ⊕ Fin 1 × Fin 2) ℝ)).PosDef := by
  refine ⟨Matrix.isSymm_zero, Matrix.PosSemidef.zero, fun hpd => ?_⟩
  have hx : (Pi.single (Sum.inr ((0 : Fin 1), (0 : Fin 2))) (1 : ℝ) :
      Fin 3 ⊕ Fin 1 × Fin 2 → ℝ) ≠ 0 := by
    intro h0
    have h1 := congrFun h0 (Sum.inr (0, 0))
    simp at h1
  have hq := hpd.2 _ hx
  have hstar : (star (Pi.single (Sum.inr ((0 : Fin 1), (0 : Fin 2))) (1 : ℝ) :
      Fin 3 ⊕ Fin 1 × Fin 2 → ℝ)) =
      Pi.single (Sum.inr ((0 : Fin 1), (0 : Fin 2))) (1 : ℝ) := by
    funext i
    simp [Pi.star_apply]
  rw [hstar, Matrix.mulVec_single, Matrix.single_dotProduct] at hq
  simp [predictP, Matrix.toBlocks₂₂] at hq

/-- C3 amended: if the input covariance is strictly positive definite (not
merely PSD) and `Q` is PSD, the covariance computed by `predict` is
symmetric and strictly positive definite.  (For merely PSD inputs with a
singular map-map block the output can be singular, see the
counterexample.) -/
theorem c3_amended {M : Type} [Fintype M] [DecidableEq M] (cfg : Config)
    (x u : Fin 3 → ℝ) (P : Matrix (Fin 3 ⊕ M) (Fin 3 ⊕ M) ℝ)
    (hQ : cfg.Q.PosSemidef) (hP : P.PosDef) :
    (predictP cfg x u P).IsSymm ∧ (predictP cfg x u P).PosDef := by
  have hpd : (predictP cfg x u P).PosDef := by
    rw [predictP_eq_conj]
    exact (posDef_mul_mul_conjTranspose hP (isUnit_predict_factor x u)).add_posSemidef
      (hQ.mul_mul_conjTranspose_same (noiseIn x u))
  refine ⟨?_, hpd⟩
  have hh := hpd.isHermitian
  rw [Matrix.IsHermitian, conjTranspose_eq_transpose_of_trivial] at hh
  exact hh

theorem c3_witness :
    cfg1.Q.PosSemidef ∧
    (1 : Matrix (Fin 3 ⊕ Fin 1 × Fin 2) (Fin 3 ⊕ Fin 1 × Fin 2) ℝ).PosDef ∧
    ((predictP cfg1 ![0, 0, 0] ![0, 0, 0]
        (1 : Matrix (Fin 3 ⊕ Fin 1 × Fin 2) (Fin 3 ⊕ Fin 1 × Fin 2) ℝ)).IsSymm ∧
      (predictP cfg1 ![0, 0, 0] ![0, 0, 0]
        (1 : Matrix (Fin 3 ⊕ Fin 1 × Fin 2) (Fin 3 ⊕ Fin 1 × Fin 2) ℝ)).PosDef) :=
  ⟨Matrix.PosSemidef.one, Matrix.PosDef.one,
    c3_amended cfg1 ![0, 0, 0] ![0, 0, 0] 1 Matrix.PosSemidef.one Matrix.PosDef.one⟩

/-! ## State augmentation (`EKFSLAM.add_landmarks`, source lines 338-452) -/

/-- World position of the landmark created from one measurement
`zj = (range, bearing)` (source lines 387-394):
`(eta[0], eta[1]) + rotmat2d(ψ)·(r·cos θ, r·sin θ) + sensor_offset_world`
with `sensor_offset_world = rotmat2d(ψ)·sensor_offset` (source line 371). -/
def lmPos (cfg : Config) (x0 y0 psi : ℝ) (zj : ℝ × ℝ) : Fin 2 → ℝ :=
  ![x0, y0] + rotmat2d psi *ᵥ ![zj.1 * Real.cos zj.2, zj.1 * Real.sin zj.2]
    + rotmat2d psi *ᵥ cfg.sensor_offset

/-- The `Gx` rows for one measurement (source lines 396-398): identity in
the first two columns; third column `r·(-sin(θ+ψ), cos(θ+ψ))` plus
`sensor_offset_world_der = rotmat2d(ψ+π/2)·sensor_offset` (source
line 372). -/
def GxJ (cfg : Config) (psi : ℝ) (zj : ℝ × ℝ) : Matrix (Fin 2) (Fin 3) ℝ :=
  !![1, 0, zj.1 * (-Real.sin (zj.2 + psi)) +
        (rotmat2d (psi + Real.pi / 2) *ᵥ cfg.sensor_offset) 0;
     0, 1, zj.1 * Real.cos (zj.2 + psi) +
        (rotmat2d (psi + Real.pi / 2) *ᵥ cfg.sensor_offset) 1]

/-- The `Gz` matrix for one measurement (source lines 402-404):
`rotmat2d(θ+ψ) · diag(1, r)`. -/
def GzJ (psi : ℝ) (zj : ℝ × ℝ) : Matrix (Fin 2) (Fin 2) ℝ :=
  rotmat2d (zj.2 + psi) * !![1, 0; 0, zj.1]

/-- The stacked `Gx` of all new landmarks (source line 365 and the loop). -/
def GxAll (cfg : Config) (psi : ℝ) (z : List (ℝ × ℝ)) :
    Matrix (Fin z.length × Fin 2) (Fin 3) ℝ :=
  of fun jb c => GxJ cfg psi (z.get jb.1) jb.2 c

/-- The block-diagonal `Rall` of the world-frame measurement covariances
`Gz·R·Gzᵀ`, one 2×2 block per new landmark (source lines 367, 409-412). -/
def Rall (cfg : Config) (psi : ℝ) (z : List (ℝ × ℝ)) :
    Matrix (Fin z.length × Fin 2) (Fin z.length × Fin 2) ℝ :=
  of fun jb kb =>
    if jb.1 = kb.1 then
      (GzJ psi (z.get jb.1) * cfg.R * (GzJ psi (z.get jb.1))ᵀ) jb.2 kb.2
    else 0

/-- The flat vector `lmnew` of the new landmarks' world coordinates, two
entries per measurement (source loop, line 394). -/
def lmnewList (cfg : Config) (x0 y0 psi : ℝ) : List (ℝ × ℝ) → List ℝ
  | [] => []
  | zj :: rest =>
    lmPos cfg x0 y0 psi zj 0 :: lmPos cfg x0 y0 psi zj 1 ::
      lmnewList cfg x0 y0 psi rest

/-- `etaadded = np.block([eta, lmnew])` (source line 418); the pose entries
are read from the front of the state vector (`eta[0]`, `eta[1]`,
`eta[2]`). -/
def addLandmarksEta (cfg : Config) (etaL : List ℝ) (z : List (ℝ × ℝ)) : List ℝ :=
  etaL ++ lmnewList cfg (etaL.getD 0 0) (etaL.getD 1 0) (etaL.getD 2 0) z

/-- `Padded` (source lines 426-437): `block_diag(P, Gx·P[0:3,0:3]·Gxᵀ + Rall)`
with the top-right corner then overwritten by `P[:,0:3]·Gxᵀ` and the
bottom-left corner by its transpose. -/
def addLandmarksP {M : Type} (cfg : Config) (pose : Fin 3 → ℝ)
    (P : Matrix (Fin 3 ⊕ M) (Fin 3 ⊕ M) ℝ) (z : List (ℝ × ℝ)) :
    Matrix ((Fin 3 ⊕ M) ⊕ Fin z.length × Fin 2)
      ((Fin 3 ⊕ M) ⊕ Fin z.length × Fin 2) ℝ :=
  fromBlocks P
    ((of fun i p => P i (Sum.inl p)) * (GxAll cfg (pose 2) z)ᵀ)
    ((of fun i p => P i (Sum.inl p)) * (GxAll cfg (pose 2) z)ᵀ)ᵀ
    (GxAll cfg (pose 2) z * P.toBlocks₁₁ * (GxAll cfg (pose 2) z)ᵀ +
      Rall cfg (pose 2) z)

lemma lmnewList_length (cfg : Config) (x0 y0 psi : ℝ) (z : List (ℝ × ℝ)) :
    (lmnewList cfg x0 y0 psi z).length = 2 * z.length := by
  induction z with
  | nil => simp [lmnewList]
  | cons zj rest ih =>
    simp [lmnewList, ih]
    ring

/-- C4: augmenting the state with the batch `z` of `k` measurements grows
`eta` by exactly `2k` entries and `P` by exactly `2k` rows and columns, the
pre-existing top-left block of the new `P` equals the old `P` exactly, and
the landmark count grows from `L` to `L + k`. -/
theorem c4_augment_frame {M : Type} [Fintype M] (cfg : Config) (etaL : List ℝ)
    (pose : Fin 3 → ℝ) (P : Matrix (Fin 3 ⊕ M) (Fin 3 ⊕ M) ℝ)
    (z : List (ℝ × ℝ)) (L : ℕ) (hL : etaL.length = 3 + 2 * L) :
    (addLandmarksEta cfg etaL z).length = etaL.length + 2 * z.length ∧
    (addLandmarksP cfg pose P z).toBlocks₁₁ = P ∧
    Fintype.card ((Fin 3 ⊕ M) ⊕ Fin z.length × Fin 2) =
      Fintype.card (Fin 3 ⊕ M) + 2 * z.length ∧
    (addLandmarksEta cfg etaL z).length = 3 + 2 * (L + z.length) := by
  refine ⟨?_, ?_, ?_, ?_⟩
  · simp [addLandmarksEta, lmnewList_length]
  · simp [addLandmarksP, Matrix.toBlocks_fromBlocks₁₁]
  · simp [Fintype.card_sum, Fintype.card_prod]
    ring
  · simp [addLandmarksEta, lmnewList_length, hL]
    ring

theorem c4_witness :
    ([(0 : ℝ), 0, 0, 1, 2].length = 3 + 2 * 1) ∧
    (addLandmarksEta cfg1 [(0 : ℝ), 0, 0, 1, 2] [(2, 0)]).length = 3 + 2 * (1 + 1) :=
  ⟨by simp,
    (c4_augment_frame (M := Fin 1 × Fin 2) cfg1 [(0 : ℝ), 0, 0, 1, 2] ![0, 0, 0] 1
      [(2, 0)] 1 (by simp)).2.2.2⟩

/-- C5 counterexample: with the single measurement `(range 2, bearing 0)`
taken from pose `(0,0,0)` with zero sensor offset but a nonzero pose
covariance (`P = I`, `R = I`), the appended landmark's self-covariance block
is `Gx·P_rr·Gxᵀ + Gz·R·Gzᵀ ≠ Gz·R·Gzᵀ`: its `(0,0)` entry is `2`, not `1`.
The claim holds only when the robot-pose covariance block is zero. -/
theorem c5_counterexample :
    ¬ ((addLandmarksP cfg1 ![0, 0, 0]
          (1 : Matrix (Fin 3 ⊕ Fin 0 × Fin 2) (Fin 3 ⊕ Fin 0 × Fin 2) ℝ)
          [(2, 0)]).toBlocks₂₂ =
        of fun jb kb => (GzJ 0 (2, 0) * cfg1.R * (GzJ 0 (2, 0))ᵀ) jb.2 kb.2) := by
  intro hEq
  have h00 := congrFun (congrFun hEq ((0 : Fin 1), (0 : Fin 2))) ((0 : Fin 1), (0 : Fin 2))
  have hone : (1 : Matrix (Fin 3 ⊕ Fin 0 × Fin 2) (Fin 3 ⊕ Fin 0 × Fin 2) ℝ).toBlocks₁₁ =
      (1 : Matrix (Fin 3) (Fin 3) ℝ) := by
    ext i j
    simp [Matrix.toBlocks₁₁, Matrix.one_apply, Sum.inl.injEq]
  rw [addLandmarksP, Matrix.toBlocks_fromBlocks₂₂, hone] at h00
  simp [Matrix.mul_apply, GxAll, GxJ, Rall, GzJ, rotmat2d, cfg1,
    Fin.sum_univ_three, Fin.sum_univ_two, Matrix.mulVec, Matrix.dotProduct,
    Matrix.one_apply] at h00

/-- C5 amended: for the single measurement `(range 2, bearing 0)` from pose
`(0,0,0)` with zero sensor offset and a zero covariance (so the pose
uncertainty contributes nothing), the new landmark lands at world `(2, 0)`
and its self-covariance block equals `Gz·R·Gzᵀ` at that measurement; with a
nonzero robot-pose covariance the block is `Gx·P_rr·Gxᵀ + Gz·R·Gzᵀ`. -/
theorem c5_amended (Q0 : Matrix (Fin 3) (Fin 3) ℝ) (R0 : Matrix (Fin 2) (Fin 2) ℝ)
    (b : Bool) (al : Fin 2 → ℝ) :
    addLandmarksEta (Config.mk Q0 R0 b al fun _ => 0) [0, 0, 0] [(2, 0)] =
      [0, 0, 0, 2, 0] ∧
    (addLandmarksP (Config.mk Q0 R0 b al fun _ => 0) ![0, 0, 0]
        (0 : Matrix (Fin 3 ⊕ Fin 0 × Fin 2) (Fin 3 ⊕ Fin 0 × Fin 2) ℝ)
        [(2, 0)]).toBlocks₂₂ =
      of fun jb kb => (GzJ 0 (2, 0) * R0 * (GzJ 0 (2, 0))ᵀ) jb.2 kb.2 := by
  constructor
  · simp [addLandmarksEta, lmnewList, lmPos, rotmat2d, Matrix.mulVec,
      Matrix.dotProduct, Fin.sum_univ_two, Matrix.vecHead, Matrix.vecTail,
      Function.comp]
  · have hzero : (0 : Matrix (Fin 3 ⊕ Fin 0 × Fin 2) (Fin 3 ⊕ Fin 0 × Fin 2) ℝ).toBlocks₁₁ =
        (0 : Matrix (Fin 3) (Fin 3) ℝ) := by
      ext i j
      simp [Matrix.toBlocks₁₁]
    rw [addLandmarksP, Matrix.toBlocks_fromBlocks₂₂, hzero]
    ext jb kb
    have hj := jb.1.isLt
    have hk := kb.1.isLt
    simp only [List.length_cons, List.length_nil] at hj hk
    have hfst : jb.1 = kb.1 := Fin.ext (by omega)
    simp [Rall, hfst]

/-! ## Measurement model (`EKFSLAM.h` and `EKFSLAM.h_jac`, source
lines 183-336) -/

/-- Index type of the joint state with `L` landmarks: 3 pose entries and a
coordinate pair per landmark.  `Sum.inr (i, b)` is the flat index
`3 + 2i + b` of the numpy state vector. -/
abbrev StIdx (L : ℕ) := Fin 3 ⊕ Fin L × Fin 2

/-- `np.linalg.norm(·, 2)` of a 2-vector. -/
def norm2 (v : Fin 2 → ℝ) : ℝ := Real.sqrt (v 0 ^ 2 + v 1 ^ 2)

/-- Modelled from the spec: `np.arctan2(y, x)` is the principal polar angle
of the point `(x, y)`, in `(-π, π]`, with `arctan2 0 0 = 0`; that is the
complex argument of `x + iy`. -/
def arctan2 (y x : ℝ) : ℝ := Complex.arg (Complex.mk x y)

/-- `EKFSLAM.h` (source lines 183-242): the predicted `(range, bearing)` of
each landmark: the world-frame offset `m - x[0:2]` is rotated by `-ψ` into
the body frame and the sensor offset subtracted; range is the 2-norm and
bearing the `arctan2` of the result. -/
def h {L : ℕ} (cfg : Config) (eta : StIdx L → ℝ) : Fin L × Fin 2 → ℝ :=
  fun ib =>
    let delta : Fin 2 → ℝ :=
      ![eta (Sum.inr (ib.1, 0)) - eta (Sum.inl 0),
        eta (Sum.inr (ib.1, 1)) - eta (Sum.inl 1)]
    let zc : Fin 2 → ℝ :=
      rotmat2d (-eta (Sum.inl 2)) *ᵥ delta - cfg.sensor_offset
    if ib.2 = 0 then norm2 zc else arctan2 (zc 1) (zc 0)

/-- The cartesian offset `zc` used inside `h_jac` (source line 278):
`delta_m - rotmat2d(ψ) @ sensor_offset`. -/
def h_jac_zc {L : ℕ} (cfg : Config) (eta : StIdx L → ℝ) (i : Fin L) :
    Fin 2 → ℝ :=
  (![eta (Sum.inr (i, 0)) - eta (Sum.inl 0),
     eta (Sum.inr (i, 1)) - eta (Sum.inl 1)] : Fin 2 → ℝ) -
    rotmat2d (eta (Sum.inl 2)) *ᵥ cfg.sensor_offset

/-- The predicted range `zpred_r` that `h_jac` divides by (source
line 279).  Nothing in `h_jac` guards against `zpred_r = 0`. -/
def h_jac_range {L : ℕ} (cfg : Config) (eta : StIdx L → ℝ) (i : Fin L) : ℝ :=
  norm2 (h_jac_zc cfg eta i)

/-- `EKFSLAM.h_jac` (source lines 244-336).  Row `(i, 0)` is landmark `i`'s
range row and `(i, 1)` its bearing row; the `Sum.inl` columns hold the pose
block `Hx` (source lines 322-323), the columns of landmark `i` hold `Hm`
(source lines 325-326), and every other column keeps the zero the matrix
was allocated with (source line 299). -/
def h_jac {L : ℕ} (cfg : Config) (eta : StIdx L → ℝ) :
    Matrix (Fin L × Fin 2) (StIdx L) ℝ :=
  of fun ib j =>
    let delta : Fin 2 → ℝ :=
      ![eta (Sum.inr (ib.1, 0)) - eta (Sum.inl 0),
        eta (Sum.inr (ib.1, 1)) - eta (Sum.inl 1)]
    let zc := h_jac_zc cfg eta ib.1
    let zr := h_jac_range cfg eta ib.1
    let Rpihalf := rotmat2d (Real.pi / 2)
    let jaczcb : Matrix (Fin 2) (Fin 3) ℝ :=
      of fun r c =>
        if c = 2 then (-(Rpihalf *ᵥ delta)) r
        else if (r : ℕ) = (c : ℕ) then -1 else 0
    match j with
    | Sum.inl p =>
        if ib.2 = 0 then (zc ᵥ* jaczcb) p / zr
        else (zc ᵥ* (Rpihalfᵀ * jaczcb)) p / zr ^ 2
    | Sum.inr ib2 =>
        if ib2.1 = ib.1 then
          if ib.2 = 0 then zc ib2.2 / zr
          else (-(zc ᵥ* Rpihalf)) ib2.2 / zr ^ 2
        else 0

/-- C7: in landmark `i`'s row pair of `h_jac`, every entry in the columns of
a different landmark `i2 ≠ i` is an exact structural zero, so nonzero
entries can only sit in the pose columns and landmark `i`'s own column
pair; the matrix has `2L` rows and `3 + 2L` columns. -/
theorem c7_jacobian_sparsity {L : ℕ} (cfg : Config) (eta : StIdx L → ℝ)
    (i : Fin L) (b : Fin 2) (i2 : Fin L) (b2 : Fin 2) (hne : i2 ≠ i) :
    h_jac cfg eta (i, b) (Sum.inr (i2, b2)) = 0 ∧
    Fintype.card (Fin L × Fin 2) = 2 * L ∧
    Fintype.card (StIdx L) = 3 + 2 * L := by
  refine ⟨?_, ?_, ?_⟩
  · simp [h_jac, hne]
  · simp [Fintype.card_prod]
    ring
  · simp [Fintype.card_sum, Fintype.card_prod]
    ring

theorem c7_witness :
    ((1 : Fin 2) ≠ (0 : Fin 2)) ∧
    h_jac (L := 2) cfg1 (fun _ => 0) ((0 : Fin 2), (0 : Fin 2))
      (Sum.inr ((1 : Fin 2), (0 : Fin 2))) = 0 :=
  ⟨by decide,
    (c7_jacobian_sparsity (L := 2) cfg1 (fun _ => 0) 0 0 1 0 (by decide)).1⟩

/-- C10: at a state whose landmark coincides with the sensor position
(pose at the origin, landmark at `(0, 0)`, zero sensor offset), the range
`zpred_r` that `h_jac` divides by is exactly `0` — the computation divides
by the zero range with no guard or fallback — and the whole row pair of
that landmark collapses to the `x/0` junk value (`0` under Lean's total
division; numpy propagates non-finite values there). -/
theorem c10_zero_range_division :
    h_jac_range (L := 1) cfg1 (fun _ => 0) 0 = 0 ∧
    ∀ (b : Fin 2) (j : StIdx 1), h_jac (L := 1) cfg1 (fun _ => 0) (0, b) j = 0 := by
  have hzc : h_jac_zc (L := 1) cfg1 (fun _ => 0) 0 = 0 := by
    funext b2
    fin_cases b2 <;>
      simp [h_jac_zc, cfg1, Matrix.mulVec, Matrix.dotProduct]
  constructor
  · simp [h_jac_range, hzc, norm2]
  · intro b j
    cases j with
    | inl p =>
      simp [h_jac, hzc]
    | inr ib2 =>
      have h1 : ib2.1 = 0 := Fin.eq_zero _
      simp [h_jac, hzc, h1]

/-! ## Correction step (`EKFSLAM.associate`, source lines 454-506, and
`EKFSLAM.update`, source lines 508-634) -/

/-- `np.kron(np.eye(numLmk), R)` (source line 541): the stacked measurement
noise, one copy of `R` on each landmark's diagonal block. -/
def bigR (cfg : Config) (L : ℕ) : Matrix (Fin L × Fin 2) (Fin L × Fin 2) ℝ :=
  of fun rb sb => if rb.1 = sb.1 then cfg.R rb.2 sb.2 else 0

/-- `EKFSLAM.associate` (source lines 454-506).  The `JCBB` search is an
external collaborator; its association vector (one integer per measurement,
`-1` meaning unassociated) enters as the parameter `a`.  On the
`do_asso = False` branch (source lines 504-506) the source falls through
with no return statement, i.e. it returns `None`: hence the `Option`.  The
sub-matrix extraction the source performs here (lines 485-497) is carried
out at the use site inside `update` below. -/
def associate {L : ℕ} (cfg : Config) (z : List (ℝ × ℝ))
    (zpred : Fin L × Fin 2 → ℝ) (H : Matrix (Fin L × Fin 2) (StIdx L) ℝ)
    (S : Matrix (Fin L × Fin 2) (Fin L × Fin 2) ℝ) (a : List ℤ) :
    Option (List ℤ) :=
  if cfg.do_asso then some a else none

/-- The landmark indices claimed by the association: `a[a > -1]` (source
lines 492-493). -/
def matchedLmks (a : List ℤ) : List ℕ :=
  (a.filter fun t => -1 < t).map Int.toNat

/-- `zbarinds` (source lines 491-493): flat index `2·a_m + (t mod 2)` into
the predicted measurement stack, for the `t`-th associated scalar. -/
def zbarIdx (mtch : List ℕ) (t : ℕ) : ℕ := 2 * mtch.getD (t / 2) 0 + t % 2

/-- Converts a flat measurement index `n = 2i + b` into the
`(Fin L × Fin 2)`-indexed stack; `none` when out of range. -/
def lmIdx (L : ℕ) (n : ℕ) : Option (Fin L × Fin 2) :=
  if h2 : n / 2 < L then some (⟨n / 2, h2⟩, ⟨n % 2, Nat.mod_lt _ (by omega)⟩)
  else none

/-- The associated raw measurements, flattened (`zass`, source
lines 485-488). -/
def zassList (z : List (ℝ × ℝ)) (a : List ℤ) : List ℝ :=
  ((z.zip a).filter fun p => -1 < p.2).foldr
    (fun p acc => p.1.1 :: p.1.2 :: acc) []

/-- `EKFSLAM.update` (source lines 508-611): the empty-map branch
(lines 605-611), the association call and its `None` failure mode
(line 550), the no-match early exit (lines 553-556), and the Joseph-form
correction (lines 557-603) with `v` the bearing-wrapped innovation,
`W = P·Haᵀ·Sa⁻¹` the gain (the source's Cholesky solve of lines 565-566
computes exactly `Sa⁻¹`), `Pupd = (I - W·Ha)·P·(I - W·Ha)ᵀ + W·R̃·Wᵀ` and
`NIS = vᵀ·Sa⁻¹·v`.  The terminal new-landmark augmentation (lines 613-622)
is `addLandmarksEta`/`addLandmarksP` applied to this function's output.  An
out-of-range landmark index from the external `JCBB` (an `IndexError` in
Python) is modelled as an error. -/
def update {L : ℕ} (cfg : Config) (eta : StIdx L → ℝ)
    (P : Matrix (StIdx L) (StIdx L) ℝ) (z : List (ℝ × ℝ)) (aJ : List ℤ) :
    Except String ((StIdx L → ℝ) × Matrix (StIdx L) (StIdx L) ℝ × ℝ × List ℤ) :=
  if 0 < L then
    let zpred := h cfg eta
    let H := h_jac cfg eta
    let S := H * P * Hᵀ + bigR cfg L
    match associate cfg z zpred H S aJ with
    | none => Except.error "associate returned None and update cannot unpack it"
    | some a =>
        let mtch := matchedLmks a
        if mtch.all fun j => j < L then
          if mtch.length = 0 then Except.ok (eta, P, 1, a)
          else
            let c := mtch.length
            let v : Fin (2 * c) → ℝ := fun t =>
              let d := (zassList z a).getD t 0 -
                (lmIdx L (zbarIdx mtch t)).elim 0 zpred
              if (t : ℕ) % 2 = 1 then wrapToPi d else d
            let Hass : Matrix (Fin (2 * c)) (StIdx L) ℝ :=
              of fun r j => (lmIdx L (zbarIdx mtch r)).elim 0 fun p => H p j
            let Sass : Matrix (Fin (2 * c)) (Fin (2 * c)) ℝ :=
              of fun r s =>
                (lmIdx L (zbarIdx mtch r)).elim 0 fun p =>
                  (lmIdx L (zbarIdx mtch s)).elim 0 fun q => S p q
            let Sinv := Sass⁻¹
            let W := P * Hassᵀ * Sinv
            let jo := (1 : Matrix (StIdx L) (StIdx L) ℝ) - W * Hass
            let bigRc : Matrix (Fin (2 * c)) (Fin (2 * c)) ℝ :=
              of fun r s =>
                if (r : ℕ) / 2 = (s : ℕ) / 2 then
                  cfg.R ⟨(r : ℕ) % 2, Nat.mod_lt _ (by omega)⟩
                    ⟨(s : ℕ) % 2, Nat.mod_lt _ (by omega)⟩
                else 0
            let Pupd := jo * P * joᵀ + W * bigRc * Wᵀ
            Except.ok (eta + W *ᵥ v, Pupd, v ⬝ᵥ (Sinv *ᵥ v), a)
        else Except.error "landmark index out of range"
  else
    Except.ok (eta, P, 1, List.replicate z.length (-1))

/-- C6: with an empty map (`eta` of length 3, `L = 0`) `update` takes the
all-new branch: it returns the association vector `[-1, ..., -1]` (one
sentinel per measurement), the unchanged `(eta, P)` — any later change
comes only from the terminal `add_landmarks` augmentation — and the
neutral NIS sentinel `1`. -/
theorem c6_empty_map_update (cfg : Config) (eta : StIdx 0 → ℝ)
    (P : Matrix (StIdx 0) (StIdx 0) ℝ) (z : List (ℝ × ℝ)) (aJ : List ℤ) :
    update cfg eta P z aJ = Except.ok (eta, P, 1, List.replicate z.length (-1)) := by
  simp [update]

/-- C9: with association disabled and at least one landmark in the state,
`associate` returns `None` (its `do_asso`-false branch falls through) and
`update`, which unconditionally unpacks that result, fails with an error
instead of performing a correction. -/
theorem c9_no_asso_error {L : ℕ} (cfg : Config) (eta : StIdx L → ℝ)
    (P : Matrix (StIdx L) (StIdx L) ℝ) (z : List (ℝ × ℝ)) (aJ : List ℤ)
    (zpred : Fin L × Fin 2 → ℝ) (H : Matrix (Fin L × Fin 2) (StIdx L) ℝ)
    (S : Matrix (Fin L × Fin 2) (Fin L × Fin 2) ℝ)
    (hA : cfg.do_asso = false) (hL : 0 < L) :
    associate cfg z zpred H S aJ = none ∧
    update cfg eta P z aJ =
      Except.error "associate returned None and update cannot unpack it" := by
  constructor
  · simp [associate, hA]
  · simp [update, hL, associate, hA]

/-- A concrete configuration with association disabled. -/
def cfgNoAsso : Config := ⟨1, 1, false, ![0.001, 0.0001], fun _ => 0⟩

theorem c9_witness :
    (cfgNoAsso.do_asso = false ∧ 0 < 1) ∧
    (associate (L := 1) cfgNoAsso [] (fun _ => 0) 0 0 [] = none ∧
      update (L := 1) cfgNoAsso (fun _ => 0) 0 [] [] =
        Except.error "associate returned None and update cannot unpack it") :=
  ⟨⟨rfl, Nat.one_pos⟩,
    c9_no_asso_error cfgNoAsso (fun _ => 0) 0 [] [] (fun _ => 0) 0 0 rfl Nat.one_pos⟩

/-! ## Consistency metrics (`EKFSLAM.NEESes`, source lines 636-682)

The heading NEES `d_heading ** 2 / P_heading` is computed on numpy float64
scalars.  numpy float division by zero raises no `ZeroDivisionError` — the
`try/except` of source lines 673-676 can never fire for numpy scalars — it
produces `inf`, `-inf` or `nan` under a runtime warning, and only `nan` is
replaced by the fallback `1.0` at source line 679
(`NEESes[np.isnan(NEESes)] = 1.0`).  `RFloat` models exactly that
finite/infinite/NaN arithmetic for the heading term. -/

/-- A numpy float64 value: finite, one of the two infinities, or NaN. -/
inductive RFloat where
  | fin (x : ℝ)
  | inf
  | ninf
  | nan

/-- IEEE-754 division as numpy float64 implements it (the sign of zero is
not modelled; it does not affect the cases a `NEESes` heading term can
produce, whose numerator is a square). -/
def RFloat.div : RFloat → RFloat → RFloat
  | RFloat.fin x, RFloat.fin y =>
    if y ≠ 0 then RFloat.fin (x / y)
    else if 0 < x then RFloat.inf
    else if x < 0 then RFloat.ninf
    else RFloat.nan
  | RFloat.nan, _ => RFloat.nan
  | _, RFloat.nan => RFloat.nan
  | RFloat.inf, RFloat.fin y => if 0 ≤ y then RFloat.inf else RFloat.ninf
  | RFloat.ninf, RFloat.fin y => if 0 ≤ y then RFloat.ninf else RFloat.inf
  | RFloat.fin _, RFloat.inf => RFloat.fin 0
  | RFloat.fin _, RFloat.ninf => RFloat.fin 0
  | _, _ => RFloat.nan

/-- The NaN replacement `NEESes[np.isnan(NEESes)] = 1.0` of source
line 679, applied to one component. -/
def nanFallback : RFloat → RFloat
  | RFloat.nan => RFloat.fin 1
  | q => q

/-- The heading component of `EKFSLAM.NEESes` (source lines 654-679): the
heading error `x[2] - x_gt[2]` is wrapped to `(-π, π]` (line 655), squared
and divided by `P_heading = P[2,2]` (line 674), and a NaN result is
replaced by `1.0` (line 679).  The `except ZeroDivisionError` handler
(lines 675-676) is dead code for numpy scalars, so it does not appear. -/
def NEES_heading (x2 xgt2 P22 : ℝ) : RFloat :=
  nanFallback
    (RFloat.div (RFloat.fin (wrapToPi (x2 - xgt2) ^ 2)) (RFloat.fin P22))

/-- C8 (code_bug): with heading error `1` and `P[2,2] = 0` the heading term
divides a nonzero square by zero, giving `+inf`, which `np.isnan` does not
catch: the returned heading component is `inf`, not the fallback `1.0` the
claim (and the dead `ZeroDivisionError` handler) intend.  Only the `0/0`
case produces NaN and is actually replaced by `1.0`. -/
theorem c8_heading_inf_propagates :
    NEES_heading 1 0 0 = RFloat.inf ∧
    RFloat.inf ≠ RFloat.fin 1 ∧
    NEES_heading 0 0 0 = RFloat.fin 1 := by
  have hw1 : wrapToPi 1 = 1 :=
    wrapToPi_eq_self (by linarith [Real.pi_pos]) (by linarith [Real.pi_gt_three])
  refine ⟨?_, ?_, ?_⟩
  · norm_num [NEES_heading, hw1, RFloat.div, nanFallback]
  · intro hEq
    exact RFloat.noConfusion hEq
  · norm_num [NEES_heading, wrapToPi_zero, RFloat.div, nanFallback]

end EKFSLAM
